import Mathlib

/-!
# Metrics deduplication pipeline — shallow embedding

Embedding of the metrics ingestion/deduplication/forwarding pipeline of the
repository (service `src/services/metrics.service.ts`, route
`src/routes/v1/metrics.routes.ts`, middleware `validation.middleware.ts`,
response helpers `src/utils/response.util.ts`).

Modelling conventions:
* JS values that flow through `JSON.stringify` are modelled by the inductive
  type `Json`; JS objects are association lists in insertion order with
  pairwise-distinct keys where the source guarantees it.
* JS numbers are restricted to integers (`Int`): none of the verified
  properties depend on fractional or non-finite values.
* `crypto.createHash("sha256")....digest("hex")` is an external library
  call; it is modelled by `sha256hex`, a concrete deterministic function of
  the serialized string producing a fixed-length (64 character) hex string.
  Only determinism, never any other property of SHA-256, is used.
* The database (`prisma.metric`) is a list of `MetricRecord` in insertion
  order.  `findFirst` with a `where` clause is existence of a matching
  element, `create` appends, `updateMany` maps a conditional update.
* Time is one instant `now : Int` (milliseconds) for a whole request; the
  clock advance between metrics of one batch is not modelled.  Records carry
  `createdAt : Int` set at insertion.
* The outbound `axios.post` call is modelled by the data of the request that
  would be issued (`HttpPost`) plus an externally chosen `ForwardOutcome`
  (the sink answering, or the call failing with a network error / non-2xx /
  timeout, all of which `axios` surfaces as a thrown error).
-/

/-- JSON-serializable JS values (tag values, request bodies, responses). -/
inductive Json where
  | null : Json
  | bool : Bool → Json
  | num : Int → Json
  | str : String → Json
  | arr : List Json → Json
  | obj : List (String × Json) → Json

/-- JS truthiness of a JSON value (used by `x || y` in the source). -/
def jsTruthy : Json → Bool
  | Json.null => false
  | Json.bool b => b
  | Json.num n => n != 0
  | Json.str s => s ≠ ""
  | Json.arr _ => true
  | Json.obj _ => true

/-- One hex digit. -/
def hexDigit (n : Nat) : Char :=
  if n < 10 then Char.ofNat (48 + n) else Char.ofNat (87 + n)

/-- Fixed-width lowercase hex rendering of `n` (`width` digits, big-endian). -/
def hexPad : Nat → Nat → String
  | 0, _ => ""
  | w + 1, n => hexPad w (n / 16) ++ String.singleton (hexDigit (n % 16))

/-- JSON string escaping as performed by `JSON.stringify`. -/
def escChar (c : Char) : String :=
  if c = '"' then "\\\""
  else if c = '\\' then "\\\\"
  else if c = '\n' then "\\n"
  else if c = '\t' then "\\t"
  else if c = '\r' then "\\r"
  else if c = Char.ofNat 8 then "\\b"
  else if c = Char.ofNat 12 then "\\f"
  else if c.toNat < 32 then "\\u" ++ hexPad 4 c.toNat
  else String.singleton c

/-- Escape every character of a string. -/
def escString (s : String) : String :=
  String.join (s.data.map escChar)

mutual
/-- `JSON.stringify`: canonical serialization with no whitespace, object keys
in association-list (insertion) order. -/
def Json.stringify : Json → String
  | Json.null => "null"
  | Json.bool true => "true"
  | Json.bool false => "false"
  | Json.num n => toString n
  | Json.str s => "\"" ++ escString s ++ "\""
  | Json.arr xs => "[" ++ stringifyArr xs ++ "]"
  | Json.obj fs => "\x7b" ++ stringifyFields fs ++ "\x7d"

/-- Comma-separated serialization of array elements. -/
def stringifyArr : List Json → String
  | [] => ""
  | [x] => Json.stringify x
  | x :: y :: rest => Json.stringify x ++ "," ++ stringifyArr (y :: rest)

/-- Comma-separated serialization of object fields. -/
def stringifyFields : List (String × Json) → String
  | [] => ""
  | [(k, v)] => "\"" ++ escString k ++ "\":" ++ Json.stringify v
  | (k, v) :: f :: rest =>
      "\"" ++ escString k ++ "\":" ++ Json.stringify v ++ "," ++ stringifyFields (f :: rest)
end

/-- `crypto.createHash("sha256").update(data).digest("hex")` — external
library call, modelled as a concrete deterministic function from the input
string to a 64-character hex digest.  No property of the real SHA-256 other
than being a function of the input bytes is relied upon anywhere. -/
def sha256hex (s : String) : String :=
  hexPad 64 (s.data.foldl (fun h c => (h * 65599 + c.toNat) % (2 ^ 256)) 0)

/-- A metric as submitted by a client (interface `Metric` of the service).
`page_path` is `undefined`/`null`/a string; `undefined` and `null` are both
`none` (nothing in the pipeline distinguishes them). -/
structure Metric where
  metric_name : String
  page_path : Option String
  value : Int
  tags : List (String × Json)
  type : String

/-- `metric.page_path || null`: JS `||` sends `undefined`, `null` and the
empty string (all falsy) to `null`. -/
def normPagePath : Option String → Option String
  | none => none
  | some s => if s = "" then none else some s

/-- JS property read `tags[key]` on an association-list object. -/
def jsGet (k : String) : List (String × Json) → Json
  | [] => Json.null
  | (k', v) :: rest => if k' = k then v else jsGet k rest

/-- Tag normalization of `generateMetricHash`:
`Object.keys(metric.tags).sort().reduce(...)` — rebuild the object with keys
in ascending lexicographic order, values looked up per key and embedded
as-is (not recursively normalized). -/
def normalizeTags (tags : List (String × Json)) : List (String × Json) :=
  (List.insertionSort (· ≤ ·) (tags.map Prod.fst)).map (fun k => (k, jsGet k tags))

/-- The object serialized by `generateMetricHash` (fixed key order
`metric_name, page_path, tags, type, value`). -/
def canonicalJson (m : Metric) : Json :=
  Json.obj
    [("metric_name", Json.str m.metric_name),
     ("page_path", match normPagePath m.page_path with
       | none => Json.null
       | some s => Json.str s),
     ("tags", Json.obj (normalizeTags m.tags)),
     ("type", Json.str m.type),
     ("value", Json.num m.value)]

/-- `generateMetricHash`: SHA-256 hex digest of the canonical serialization. -/
def generateMetricHash (m : Metric) : String :=
  sha256hex (Json.stringify (canonicalJson m))

/-- `config.metrics` (from `src/config/env.ts`). -/
structure MetricsConfig where
  dedupWindowHours : Nat
  externalApiUrl : String
  externalApiEnabled : Bool

/-- A persisted row of the `metric` table.  `value` is stored as a string
(the source stores `metric.value.toString()`); `externalApiCalled` is the
`forwarded` flag of the spec, `externalApiResponse` the attached sink
response. -/
structure MetricRecord where
  metricName : String
  pagePath : Option String
  value : String
  tags : List (String × Json)
  type : String
  tagsHash : String
  createdAt : Int
  externalApiCalled : Bool
  externalApiResponse : Option Json

/-- The `where` clause of the dedup lookup (`prisma.metric.findFirst` in
`metricExistsInDB`): name, pagePath, hash, type, value all equal and
`createdAt >= now - dedupWindowHours` (in milliseconds). -/
def RecordMatch (cfg : MetricsConfig) (now : Int) (m : Metric) (tagsHash : String)
    (r : MetricRecord) : Prop :=
  r.metricName = m.metric_name ∧
  r.pagePath = normPagePath m.page_path ∧
  r.tagsHash = tagsHash ∧
  r.type = m.type ∧
  r.value = toString m.value ∧
  now - (cfg.dedupWindowHours : Int) * 3600000 ≤ r.createdAt

instance (cfg : MetricsConfig) (now : Int) (m : Metric) (h : String) (r : MetricRecord) :
    Decidable (RecordMatch cfg now m h r) := by
  unfold RecordMatch; infer_instance

/-- `metricExistsInDB`: does the store hold a record matching the metric
inside the dedup window? -/
def metricExistsInDB (cfg : MetricsConfig) (now : Int) (db : List MetricRecord)
    (metric : Metric) (tagsHash : String) : Bool :=
  db.any (fun r => decide (RecordMatch cfg now metric tagsHash r))

/-- The row written by `storeMetric` (`prisma.metric.create`). -/
def mkRecord (now : Int) (metric : Metric) (tagsHash : String) : MetricRecord :=
  { metricName := metric.metric_name
    pagePath := normPagePath metric.page_path
    value := toString metric.value
    tags := metric.tags
    type := metric.type
    tagsHash := tagsHash
    createdAt := now
    externalApiCalled := false
    externalApiResponse := none }

/-- `storeMetric`: insert one new row with `externalApiCalled = false`. -/
def storeMetric (now : Int) (db : List MetricRecord) (metric : Metric)
    (tagsHash : String) : List MetricRecord :=
  db ++ [mkRecord now metric tagsHash]

/-- The identity tuple on which both the dedup lookup and the post-forward
update match a metric against stored rows: name, normalized pagePath,
fingerprint, type, and the stored (string) value. -/
def identityTuple (m : Metric) : String × Option String × String × String × String :=
  (m.metric_name, normPagePath m.page_path, generateMetricHash m, m.type,
   toString m.value)

/-- Result type `ProcessedMetricsResult` of the service. -/
structure ProcessedMetricsResult where
  processed : Nat
  stored : Nat
  skipped : Nat
deriving DecidableEq

/-- Serialization of a metric for the outbound request body. -/
def metricToJson (m : Metric) : Json :=
  Json.obj
    [("metric_name", Json.str m.metric_name),
     ("page_path", match m.page_path with
       | none => Json.null
       | some s => Json.str s),
     ("value", Json.num m.value),
     ("tags", Json.obj m.tags),
     ("type", Json.str m.type)]

/-- The data of one outbound `axios.post` call. -/
structure HttpPost where
  url : String
  body : Json
  contentType : String
  userAgent : String
  timeoutMs : Nat

/-- Outcome of the external sink call, chosen by the environment: the sink
responds with a body, or the call fails (network error, non-2xx status,
timeout — `axios` raises in all three cases). -/
inductive ForwardOutcome where
  | success : Json → ForwardOutcome
  | failure : ForwardOutcome

/-- The request `callExternalMetricsAPI` issues for a metrics list:
`POST externalApiUrl` with body `\x7b metrics \x7d`, content type
`text/plain;charset=UTF-8`, a custom user agent, 10 s timeout. -/
def mkForwardRequest (cfg : MetricsConfig) (metrics : List Metric) : HttpPost :=
  { url := cfg.externalApiUrl
    body := Json.obj [("metrics", Json.arr (metrics.map metricToJson))]
    contentType := "text/plain;charset=UTF-8"
    userAgent := "Mozilla/5.0 (Macintosh; Intel Mac OS X 10_15_7) AppleWebKit/537.36"
    timeoutMs := 10000 }

/-- `callExternalMetricsAPI`: if the external API is disabled, return a stub
message without any outbound call; otherwise issue exactly one POST and
return its response, or propagate the failure (the source rethrows after
logging).  First component: the outbound requests actually issued. -/
def callExternalMetricsAPI (cfg : MetricsConfig) (outcome : ForwardOutcome)
    (metrics : List Metric) : List HttpPost × Except Unit Json :=
  if !cfg.externalApiEnabled then
    ([], Except.ok (Json.obj [("message", Json.str "External API disabled")]))
  else
    match outcome with
    | ForwardOutcome.success resp => ([mkForwardRequest cfg metrics], Except.ok resp)
    | ForwardOutcome.failure => ([mkForwardRequest cfg metrics], Except.error ())

/-- The `where` clause of the post-forward `prisma.metric.updateMany`: the
identity tuple of the dedup lookup (without the window) restricted to
`externalApiCalled = false`. -/
def UpdateMatch (m : Metric) (tagsHash : String) (r : MetricRecord) : Prop :=
  r.metricName = m.metric_name ∧
  r.pagePath = normPagePath m.page_path ∧
  r.tagsHash = tagsHash ∧
  r.type = m.type ∧
  r.value = toString m.value ∧
  r.externalApiCalled = false

instance (m : Metric) (h : String) (r : MetricRecord) : Decidable (UpdateMatch m h r) := by
  unfold UpdateMatch; infer_instance

/-- One `updateMany` call: set `externalApiCalled = true` and attach the
response on every matching row, leave every other row unchanged. -/
def updateForwarded (m : Metric) (tagsHash : String) (resp : Json)
    (db : List MetricRecord) : List MetricRecord :=
  db.map (fun r =>
    if UpdateMatch m tagsHash r then
      { r with externalApiCalled := true, externalApiResponse := some resp }
    else r)

/-- Loop state of `processMetrics`: the database plus the accumulators
`processed`, `stored`, `skipped` and `metricsToSend`. -/
structure ClassifyState where
  db : List MetricRecord
  processed : Nat
  stored : Nat
  skipped : Nat
  metricsToSend : List Metric

/-- One iteration of the per-metric loop of `processMetrics`. -/
def classifyStep (cfg : MetricsConfig) (now : Int) (s : ClassifyState)
    (metric : Metric) : ClassifyState :=
  let tagsHash := generateMetricHash metric
  if metricExistsInDB cfg now s.db metric tagsHash then
    { s with processed := s.processed + 1, skipped := s.skipped + 1 }
  else
    { s with
        processed := s.processed + 1
        db := storeMetric now s.db metric tagsHash
        stored := s.stored + 1
        metricsToSend := s.metricsToSend ++ [metric] }

/-- The whole classification loop of `processMetrics`, in input order. -/
def classifyMetrics (cfg : MetricsConfig) (now : Int) (db : List MetricRecord)
    (metrics : List Metric) : ClassifyState :=
  metrics.foldl (classifyStep cfg now) ⟨db, 0, 0, 0, []⟩

/-- Observable output of `processMetrics`: the returned counters, the final
database and the outbound requests issued. -/
structure ProcessOutput where
  result : ProcessedMetricsResult
  db : List MetricRecord
  requests : List HttpPost

/-- `processMetrics`: classify every metric in order, then — when something
new was stored and the external API is enabled — make one forward call; on
success mark the sent metrics' rows (`externalResponse || \x7b\x7d`
attached), on failure log and continue.  The counters are returned in every
case. -/
def processMetrics (cfg : MetricsConfig) (now : Int) (outcome : ForwardOutcome)
    (db : List MetricRecord) (metrics : List Metric) : ProcessOutput :=
  let s := classifyMetrics cfg now db metrics
  if s.metricsToSend.length > 0 ∧ cfg.externalApiEnabled then
    match callExternalMetricsAPI cfg outcome s.metricsToSend with
    | (reqs, Except.ok externalResponse) =>
        let resp := if jsTruthy externalResponse then externalResponse else Json.obj []
        let db' := s.metricsToSend.foldl
          (fun acc m => updateForwarded m (generateMetricHash m) resp acc) s.db
        { result := ⟨s.processed, s.stored, s.skipped⟩, db := db', requests := reqs }
    | (reqs, Except.error _) =>
        { result := ⟨s.processed, s.stored, s.skipped⟩, db := s.db, requests := reqs }
  else
    { result := ⟨s.processed, s.stored, s.skipped⟩, db := s.db, requests := [] }

/-- HTTP responses the metrics route can produce: the validation
middleware's `\x7b error: "Validation failed", details \x7d` on a schema
violation, `sendError` with a code and message, `sendSuccess` with the
counters. -/
inductive ApiResponse where
  | validationFailed : Nat → ApiResponse
  | error : Nat → String → String → ApiResponse
  | success : Nat → ProcessedMetricsResult → ApiResponse
deriving DecidableEq

/-- zod `z.string().nullable().optional()` for `page_path`: absent and
`null` parse to `none`, a string parses to itself, anything else fails. -/
def parsePagePath : Option Json → Option (Option String)
  | none => some none
  | some Json.null => some none
  | some (Json.str s) => some (some s)
  | some _ => none

/-- zod element schema of `metricsSchema`:
`\x7b metric_name: z.string(), page_path: z.string().nullable().optional(),
value: z.number(), tags: z.record(z.any()), type: z.string() \x7d`. -/
def parseMetric : Json → Option Metric
  | Json.obj fields =>
      match fields.lookup "metric_name", parsePagePath (fields.lookup "page_path"),
            fields.lookup "value", fields.lookup "tags", fields.lookup "type" with
      | some (Json.str name), some pp, some (Json.num v), some (Json.obj tags),
        some (Json.str ty) =>
          some { metric_name := name, page_path := pp, value := v, tags := tags, type := ty }
      | _, _, _, _, _ => none
  | _ => none

/-- zod body schema `metricsSchema`: an object with a `metrics` array whose
elements all satisfy the element schema. -/
def parseMetricsBody : Json → Option (List Metric)
  | Json.obj fields =>
      match fields.lookup "metrics" with
      | some (Json.arr xs) => xs.mapM parseMetric
      | _ => none
  | _ => none

/-- `POST /api/v1/metrics` (route + `validate(metricsSchema)` middleware):
schema violation → 400 `Validation failed`; empty metrics array → 400
`INVALID_PARAMETERS`; otherwise run `processMetrics` and answer
`success: true` with the counters.  Returns the response, the final
database, and the outbound requests issued. -/
def handleMetricsPost (cfg : MetricsConfig) (now : Int) (outcome : ForwardOutcome)
    (db : List MetricRecord) (body : Json) :
    ApiResponse × List MetricRecord × List HttpPost :=
  match parseMetricsBody body with
  | none => (ApiResponse.validationFailed 400, db, [])
  | some metrics =>
      if metrics.length = 0 then
        (ApiResponse.error 400 "INVALID_PARAMETERS"
          "Metrics array is required and cannot be empty", db, [])
      else
        let out := processMetrics cfg now outcome db metrics
        (ApiResponse.success 200 out.result, out.db, out.requests)

/-! ## Helper lemmas -/

theorem jsGet_eq_of_mem {t : List (String × Json)} {k : String} {v : Json}
    (hnd : (t.map Prod.fst).Nodup) (hmem : (k, v) ∈ t) : jsGet k t = v := by
  induction t with
  | nil => cases hmem
  | cons p rest ih =>
      obtain ⟨k', v'⟩ := p
      simp only [List.map_cons, List.nodup_cons] at hnd
      rcases List.mem_cons.mp hmem with heq | hrest
      · obtain ⟨hk, hv⟩ := Prod.mk.injEq .. ▸ heq.symm
        simp [jsGet, hk, hv]
      · have hk : k' ≠ k := by
          intro h
          exact hnd.1 (h ▸ List.mem_map.mpr ⟨(k, v), hrest, rfl⟩)
        simpa [jsGet, hk] using ih hnd.2 hrest

theorem jsGet_eq_null_of_not_mem {t : List (String × Json)} {k : String}
    (h : k ∉ t.map Prod.fst) : jsGet k t = Json.null := by
  induction t with
  | nil => rfl
  | cons p rest ih =>
      obtain ⟨k', v'⟩ := p
      simp only [List.map_cons, List.mem_cons, not_or] at h
      have hk : k' ≠ k := fun hh => h.1 hh.symm
      simpa [jsGet, hk] using ih h.2

theorem jsGet_perm {t1 t2 : List (String × Json)} (hp : t1.Perm t2)
    (hnd : (t1.map Prod.fst).Nodup) (k : String) : jsGet k t1 = jsGet k t2 := by
  by_cases hk : k ∈ t1.map Prod.fst
  · obtain ⟨⟨k0, v⟩, hmem, hfst⟩ := List.mem_map.mp hk
    have hk0 : k0 = k := hfst
    subst hk0
    have hnd2 : (t2.map Prod.fst).Nodup := ((hp.map Prod.fst).nodup_iff).mp hnd
    rw [jsGet_eq_of_mem hnd hmem, jsGet_eq_of_mem hnd2 (hp.mem_iff.mp hmem)]
  · have hk2 : k ∉ t2.map Prod.fst := fun h => hk ((hp.map Prod.fst).mem_iff.mpr h)
    rw [jsGet_eq_null_of_not_mem hk, jsGet_eq_null_of_not_mem hk2]

theorem normalizeTags_perm {t1 t2 : List (String × Json)} (hp : t1.Perm t2)
    (hnd : (t1.map Prod.fst).Nodup) : normalizeTags t1 = normalizeTags t2 := by
  unfold normalizeTags
  have hkeys : List.insertionSort (· ≤ ·) (t1.map Prod.fst)
      = List.insertionSort (· ≤ ·) (t2.map Prod.fst) :=
    List.eq_of_perm_of_sorted
      ((List.perm_insertionSort _ _).trans
        ((hp.map Prod.fst).trans (List.perm_insertionSort _ _).symm))
      (List.sorted_insertionSort _ _) (List.sorted_insertionSort _ _)
  have hfun : (fun k => (k, jsGet k t1)) = (fun k => (k, jsGet k t2)) := by
    funext k
    rw [jsGet_perm hp hnd k]
  rw [hkeys, hfun]

theorem metricExistsInDB_iff (cfg : MetricsConfig) (now : Int) (db : List MetricRecord)
    (m : Metric) (h : String) :
    metricExistsInDB cfg now db m h = true ↔ ∃ r ∈ db, RecordMatch cfg now m h r := by
  unfold metricExistsInDB
  simp [List.any_eq_true]

theorem classifyStep_counts (cfg : MetricsConfig) (now : Int) (s : ClassifyState)
    (m : Metric) :
    (classifyStep cfg now s m).processed = s.processed + 1 ∧
    (classifyStep cfg now s m).stored + (classifyStep cfg now s m).skipped
      = s.stored + s.skipped + 1 := by
  unfold classifyStep
  by_cases h : metricExistsInDB cfg now s.db m (generateMetricHash m) = true
  · simp [h]
    omega
  · simp [h]
    omega

theorem classify_foldl_counts (cfg : MetricsConfig) (now : Int) (metrics : List Metric) :
    ∀ s : ClassifyState,
    (metrics.foldl (classifyStep cfg now) s).processed = s.processed + metrics.length ∧
    (metrics.foldl (classifyStep cfg now) s).stored
        + (metrics.foldl (classifyStep cfg now) s).skipped
      = s.stored + s.skipped + metrics.length := by
  induction metrics with
  | nil => intro s; simp
  | cons m rest ih =>
      intro s
      simp only [List.foldl_cons, List.length_cons]
      obtain ⟨h1, h2⟩ := ih (classifyStep cfg now s m)
      obtain ⟨g1, g2⟩ := classifyStep_counts cfg now s m
      constructor <;> omega

theorem processMetrics_result (cfg : MetricsConfig) (now : Int) (outcome : ForwardOutcome)
    (db : List MetricRecord) (metrics : List Metric) :
    (processMetrics cfg now outcome db metrics).result =
      ⟨(classifyMetrics cfg now db metrics).processed,
       (classifyMetrics cfg now db metrics).stored,
       (classifyMetrics cfg now db metrics).skipped⟩ := by
  unfold processMetrics
  dsimp only
  split
  · split <;> rfl
  · rfl

theorem classifyStep_skip (cfg : MetricsConfig) (now : Int) (s : ClassifyState) (m : Metric)
    (h : metricExistsInDB cfg now s.db m (generateMetricHash m) = true) :
    classifyStep cfg now s m
      = { s with processed := s.processed + 1, skipped := s.skipped + 1 } := by
  unfold classifyStep
  simp [h]

theorem classifyStep_store (cfg : MetricsConfig) (now : Int) (s : ClassifyState) (m : Metric)
    (h : metricExistsInDB cfg now s.db m (generateMetricHash m) = false) :
    classifyStep cfg now s m
      = { s with processed := s.processed + 1,
                 db := storeMetric now s.db m (generateMetricHash m),
                 stored := s.stored + 1,
                 metricsToSend := s.metricsToSend ++ [m] } := by
  unfold classifyStep
  simp [h]

theorem processMetrics_failure_db (cfg : MetricsConfig) (now : Int)
    (db : List MetricRecord) (metrics : List Metric) :
    (processMetrics cfg now ForwardOutcome.failure db metrics).db
      = (classifyMetrics cfg now db metrics).db := by
  unfold processMetrics
  dsimp only
  split
  · rename_i h
    have he : cfg.externalApiEnabled = true := h.2
    unfold callExternalMetricsAPI
    simp [he]
  · rfl

theorem processMetrics_requests (cfg : MetricsConfig) (now : Int)
    (outcome : ForwardOutcome) (db : List MetricRecord) (metrics : List Metric) :
    (processMetrics cfg now outcome db metrics).requests
      = if (classifyMetrics cfg now db metrics).metricsToSend.length > 0
           ∧ cfg.externalApiEnabled then
          [mkForwardRequest cfg (classifyMetrics cfg now db metrics).metricsToSend]
        else [] := by
  unfold processMetrics
  dsimp only
  split
  · rename_i h
    have he : cfg.externalApiEnabled = true := h.2
    unfold callExternalMetricsAPI
    cases outcome <;> simp [he]
  · rfl

theorem update_noop_of_called (resp : Json) (ms : List Metric) (r : MetricRecord)
    (h : r.externalApiCalled = true) :
    ms.foldl (fun r m => if UpdateMatch m (generateMetricHash m) r then
        { r with externalApiCalled := true, externalApiResponse := some resp } else r) r
      = r := by
  induction ms with
  | nil => rfl
  | cons m rest ih =>
      simp only [List.foldl_cons]
      have hnm : ¬ UpdateMatch m (generateMetricHash m) r := by
        intro hm
        rw [hm.2.2.2.2.2] at h
        exact Bool.noConfusion h
      rw [if_neg hnm]
      exact ih

theorem perRecord_update (resp : Json) (ms : List Metric) (r : MetricRecord) :
    ms.foldl (fun r m => if UpdateMatch m (generateMetricHash m) r then
        { r with externalApiCalled := true, externalApiResponse := some resp } else r) r
      = if ∃ m ∈ ms, UpdateMatch m (generateMetricHash m) r then
          { r with externalApiCalled := true, externalApiResponse := some resp }
        else r := by
  induction ms generalizing r with
  | nil => simp
  | cons m rest ih =>
      simp only [List.foldl_cons]
      by_cases hm : UpdateMatch m (generateMetricHash m) r
      · rw [if_pos hm, update_noop_of_called resp rest _ rfl,
            if_pos ⟨m, List.mem_cons_self m rest, hm⟩]
      · rw [if_neg hm, ih]
        by_cases hr : ∃ m' ∈ rest, UpdateMatch m' (generateMetricHash m') r
        · obtain ⟨m', hmem, hm'⟩ := hr
          rw [if_pos ⟨m', hmem, hm'⟩, if_pos ⟨m', List.mem_cons_of_mem m hmem, hm'⟩]
        · rw [if_neg hr, if_neg]
          intro hc
          obtain ⟨m', hmem, hm'⟩ := hc
          rcases List.mem_cons.mp hmem with rfl | hmem'
          · exact hm hm'
          · exact hr ⟨m', hmem', hm'⟩

theorem foldl_map_update (resp : Json) (ms : List Metric) :
    ∀ db : List MetricRecord,
    ms.foldl (fun acc m => updateForwarded m (generateMetricHash m) resp acc) db
      = db.map (fun r => ms.foldl (fun r m =>
          if UpdateMatch m (generateMetricHash m) r then
            { r with externalApiCalled := true, externalApiResponse := some resp }
          else r) r) := by
  induction ms with
  | nil =>
      intro db
      simp
  | cons m rest ih =>
      intro db
      simp only [List.foldl_cons]
      rw [ih (updateForwarded m (generateMetricHash m) resp db)]
      unfold updateForwarded
      rw [List.map_map]
      rfl

theorem processMetrics_success_db (cfg : MetricsConfig) (now : Int)
    (db : List MetricRecord) (metrics : List Metric) (resp : Json)
    (he : cfg.externalApiEnabled = true)
    (hne : (classifyMetrics cfg now db metrics).metricsToSend ≠ []) :
    (processMetrics cfg now (ForwardOutcome.success resp) db metrics).db
      = (classifyMetrics cfg now db metrics).db.map (fun r =>
          if ∃ m ∈ (classifyMetrics cfg now db metrics).metricsToSend,
              UpdateMatch m (generateMetricHash m) r then
            { r with externalApiCalled := true,
                     externalApiResponse :=
                       some (if jsTruthy resp then resp else Json.obj []) }
          else r) := by
  unfold processMetrics
  dsimp only
  have hlen : (classifyMetrics cfg now db metrics).metricsToSend.length > 0 :=
    List.length_pos.mpr hne
  rw [if_pos ⟨hlen, he⟩]
  unfold callExternalMetricsAPI
  simp only [he, Bool.not_true, Bool.false_eq_true, if_false]
  rw [foldl_map_update]
  have hfun : (fun r => (classifyMetrics cfg now db metrics).metricsToSend.foldl
      (fun r m => if UpdateMatch m (generateMetricHash m) r then
        { r with externalApiCalled := true,
                 externalApiResponse :=
                   some (if jsTruthy resp then resp else Json.obj []) }
      else r) r)
      = (fun r =>
          if ∃ m ∈ (classifyMetrics cfg now db metrics).metricsToSend,
              UpdateMatch m (generateMetricHash m) r then
            { r with externalApiCalled := true,
                     externalApiResponse :=
                       some (if jsTruthy resp then resp else Json.obj []) }
          else r) := by
    funext r
    exact perRecord_update _ _ r
  rw [hfun]

/-! ## Claim theorems -/

/-- Claim C1 (confirmed): for a metric and its fingerprint, the dedup gate
skips (no insert, skipped counter incremented, stored counter unchanged)
exactly when the store holds a record matching name, pagePath, fingerprint,
type and value with createdAt at least now minus the dedup window;
otherwise it appends exactly one new record, carrying
forwarded (externalApiCalled) = false, and increments stored. -/
theorem claim_C1_dedup_gate (cfg : MetricsConfig) (now : Int)
    (s : ClassifyState) (m : Metric) :
    ((∃ r ∈ s.db, RecordMatch cfg now m (generateMetricHash m) r) →
       (classifyStep cfg now s m).db = s.db ∧
       (classifyStep cfg now s m).skipped = s.skipped + 1 ∧
       (classifyStep cfg now s m).stored = s.stored) ∧
    ((¬ ∃ r ∈ s.db, RecordMatch cfg now m (generateMetricHash m) r) →
       (classifyStep cfg now s m).db
           = s.db ++ [mkRecord now m (generateMetricHash m)] ∧
       (mkRecord now m (generateMetricHash m)).externalApiCalled = false ∧
       (classifyStep cfg now s m).stored = s.stored + 1 ∧
       (classifyStep cfg now s m).skipped = s.skipped) := by
  constructor
  · intro hex
    have hb : metricExistsInDB cfg now s.db m (generateMetricHash m) = true :=
      (metricExistsInDB_iff cfg now s.db m (generateMetricHash m)).mpr hex
    rw [classifyStep_skip cfg now s m hb]
    exact ⟨rfl, rfl, rfl⟩
  · intro hex
    have hb : metricExistsInDB cfg now s.db m (generateMetricHash m) = false := by
      rcases Bool.eq_false_or_eq_true
          (metricExistsInDB cfg now s.db m (generateMetricHash m)) with h | h
      · exact absurd ((metricExistsInDB_iff cfg now s.db m (generateMetricHash m)).mp h) hex
      · exact h
    rw [classifyStep_store cfg now s m hb]
    exact ⟨rfl, rfl, rfl, rfl⟩

/-- Witness for claim C1: on an empty store the gate takes the store branch
for a concrete metric. -/
theorem claim_C1_dedup_gate_witness :
    (¬ ∃ r ∈ ([] : List MetricRecord),
        RecordMatch ⟨1, "u", true⟩ 0
          { metric_name := "n", page_path := none, value := 1, tags := [], type := "c" }
          (generateMetricHash
            { metric_name := "n", page_path := none, value := 1, tags := [], type := "c" })
          r) ∧
    ((classifyStep ⟨1, "u", true⟩ 0 ⟨[], 0, 0, 0, []⟩
        { metric_name := "n", page_path := none, value := 1, tags := [], type := "c" }).db
       = [] ++ [mkRecord 0
          { metric_name := "n", page_path := none, value := 1, tags := [], type := "c" }
          (generateMetricHash
            { metric_name := "n", page_path := none, value := 1, tags := [], type := "c" })] ∧
     (mkRecord 0
        { metric_name := "n", page_path := none, value := 1, tags := [], type := "c" }
        (generateMetricHash
          { metric_name := "n", page_path := none, value := 1, tags := [], type := "c" })).externalApiCalled
       = false ∧
     (classifyStep ⟨1, "u", true⟩ 0 ⟨[], 0, 0, 0, []⟩
        { metric_name := "n", page_path := none, value := 1, tags := [], type := "c" }).stored
       = 0 + 1 ∧
     (classifyStep ⟨1, "u", true⟩ 0 ⟨[], 0, 0, 0, []⟩
        { metric_name := "n", page_path := none, value := 1, tags := [], type := "c" }).skipped
       = 0) :=
  ⟨by simp,
   (claim_C1_dedup_gate ⟨1, "u", true⟩ 0 ⟨[], 0, 0, 0, []⟩
      { metric_name := "n", page_path := none, value := 1, tags := [], type := "c" }).2
     (by simp)⟩

/-- Claim C2 (confirmed): two metrics with identical name, pagePath, type
and value whose tag maps hold the same key/value pairs — one a permutation
of the other, keys pairwise distinct — receive identical fingerprints from
generateMetricHash, for arbitrary JSON tag values including nested objects
and arrays. -/
theorem claim_C2_hash_tag_order_invariant (m1 m2 : Metric)
    (hname : m1.metric_name = m2.metric_name)
    (hpath : m1.page_path = m2.page_path)
    (hvalue : m1.value = m2.value)
    (htype : m1.type = m2.type)
    (htags : m1.tags.Perm m2.tags)
    (hnd : (m1.tags.map Prod.fst).Nodup) :
    generateMetricHash m1 = generateMetricHash m2 := by
  unfold generateMetricHash canonicalJson
  rw [hname, hpath, htype, hvalue, normalizeTags_perm htags hnd]

/-- Witness for claim C2: concrete pair with the same two tags in swapped
declaration order, one tag value a nested object, the other an array. -/
theorem claim_C2_hash_tag_order_invariant_witness :
    generateMetricHash
      { metric_name := "m", page_path := some "/p", value := 1,
        tags := [("b", Json.obj [("y", Json.num 2), ("x", Json.num 1)]),
                 ("a", Json.arr [Json.str "u"])],
        type := "count" }
      = generateMetricHash
      { metric_name := "m", page_path := some "/p", value := 1,
        tags := [("a", Json.arr [Json.str "u"]),
                 ("b", Json.obj [("y", Json.num 2), ("x", Json.num 1)])],
        type := "count" } :=
  claim_C2_hash_tag_order_invariant _ _ rfl rfl rfl rfl
    (List.Perm.swap _ _ _) (by simp)

/-- Claim C3 (confirmed): for every non-empty batch the counters returned
by processMetrics satisfy processed = stored + skipped and
processed = batch length, for every forward outcome and configuration. -/
theorem claim_C3_counter_invariant (cfg : MetricsConfig) (now : Int)
    (outcome : ForwardOutcome) (db : List MetricRecord) (metrics : List Metric)
    (hne : 0 < metrics.length) :
    (processMetrics cfg now outcome db metrics).result.processed
      = (processMetrics cfg now outcome db metrics).result.stored
        + (processMetrics cfg now outcome db metrics).result.skipped ∧
    (processMetrics cfg now outcome db metrics).result.processed
      = metrics.length := by
  rw [processMetrics_result]
  dsimp only
  obtain ⟨h1, h2⟩ := classify_foldl_counts cfg now metrics ⟨db, 0, 0, 0, []⟩
  dsimp only at h1 h2
  unfold classifyMetrics
  exact ⟨by omega, by omega⟩

/-- Witness for claim C3 at a one-element batch. -/
theorem claim_C3_counter_invariant_witness :
    0 < ([{ metric_name := "n", page_path := none, value := 1, tags := [],
            type := "c" }] : List Metric).length ∧
    ((processMetrics ⟨1, "u", true⟩ 0 ForwardOutcome.failure []
        [{ metric_name := "n", page_path := none, value := 1, tags := [],
           type := "c" }]).result.processed
       = (processMetrics ⟨1, "u", true⟩ 0 ForwardOutcome.failure []
           [{ metric_name := "n", page_path := none, value := 1, tags := [],
              type := "c" }]).result.stored
         + (processMetrics ⟨1, "u", true⟩ 0 ForwardOutcome.failure []
             [{ metric_name := "n", page_path := none, value := 1, tags := [],
                type := "c" }]).result.skipped ∧
     (processMetrics ⟨1, "u", true⟩ 0 ForwardOutcome.failure []
        [{ metric_name := "n", page_path := none, value := 1, tags := [],
           type := "c" }]).result.processed
       = ([{ metric_name := "n", page_path := none, value := 1, tags := [],
             type := "c" }] : List Metric).length) :=
  ⟨by decide,
   claim_C3_counter_invariant ⟨1, "u", true⟩ 0 ForwardOutcome.failure []
     [{ metric_name := "n", page_path := none, value := 1, tags := [], type := "c" }]
     (by decide)⟩

/-- Counterexample to claim C9: the intake schema accepts a metric whose
metric_name is the empty string; the batch is fully processed and answered
with success and one stored metric, instead of being rejected with a
validation error. -/
theorem claim_C9_counterexample :
    parseMetricsBody (Json.obj [("metrics", Json.arr
        [Json.obj [("metric_name", Json.str ""), ("value", Json.num 1),
                   ("tags", Json.obj []), ("type", Json.str "count")]])])
      = some [{ metric_name := "", page_path := none, value := 1, tags := [],
                type := "count" }] ∧
    (handleMetricsPost ⟨1, "u", true⟩ 0 ForwardOutcome.failure []
        (Json.obj [("metrics", Json.arr
          [Json.obj [("metric_name", Json.str ""), ("value", Json.num 1),
                     ("tags", Json.obj []), ("type", Json.str "count")]])])).1
      = ApiResponse.success 200 ⟨1, 1, 0⟩ := by
  exact ⟨rfl, rfl⟩

/-- Claim C9 amended: the intake schema requires metric_name to be a string
but does not require it to be non-empty; every otherwise-well-formed metric
whose metric_name is the empty string passes validation and is handed to
per-metric processing. -/
theorem claim_C9_amended (v : Int) (tags : List (String × Json)) (ty : String) :
    parseMetric (Json.obj [("metric_name", Json.str ""), ("value", Json.num v),
        ("tags", Json.obj tags), ("type", Json.str ty)])
      = some { metric_name := "", page_path := none, value := v, tags := tags,
               type := ty } := rfl

/-- Claim C10 (confirmed): an empty-string pagePath is treated by the
pipeline exactly like a null/absent pagePath — same fingerprint, same dedup
lookup result against every store, the same stored row, and the persisted
row carries pagePath null. -/
theorem claim_C10_empty_pagePath_is_null (m : Metric) :
    generateMetricHash { m with page_path := some "" }
        = generateMetricHash { m with page_path := none } ∧
    (∀ (cfg : MetricsConfig) (now : Int) (db : List MetricRecord) (h : String),
       metricExistsInDB cfg now db { m with page_path := some "" } h
         = metricExistsInDB cfg now db { m with page_path := none } h) ∧
    (∀ (now : Int) (db : List MetricRecord) (h : String),
       storeMetric now db { m with page_path := some "" } h
         = storeMetric now db { m with page_path := none } h) ∧
    (∀ (now : Int) (h : String),
       (mkRecord now { m with page_path := some "" } h).pagePath = none) :=
  ⟨rfl, fun _ _ _ _ => rfl, fun _ _ _ => rfl, fun _ _ => rfl⟩

/-- Counterexample to claim C6: a body without a metrics list (here the
empty object) is rejected by the schema middleware with the plain
400 Validation failed response, not with the INVALID_PARAMETERS code and
message the claim asserts for the missing/not-a-list case. -/
theorem claim_C6_counterexample :
    (handleMetricsPost ⟨1, "u", true⟩ 0 ForwardOutcome.failure []
        (Json.obj [])).1
      = ApiResponse.validationFailed 400 ∧
    ApiResponse.validationFailed 400
      ≠ ApiResponse.error 400 "INVALID_PARAMETERS"
          "Metrics array is required and cannot be empty" := by
  exact ⟨rfl, by decide⟩

/-- Claim C6 amended: a batch whose metrics array is empty is rejected
before any per-metric processing with INVALID_PARAMETERS and the message
"Metrics array is required and cannot be empty", the store untouched and no
outbound call made; a body whose metrics field is missing or not a list is
rejected even earlier by schema validation with the 400 Validation failed
response (without that code or message), equally without any store access;
neither case returns a 0/0/0 success result. -/
theorem claim_C6_amended (cfg : MetricsConfig) (now : Int)
    (outcome : ForwardOutcome) (db : List MetricRecord) (body : Json) :
    (parseMetricsBody body = some [] →
       handleMetricsPost cfg now outcome db body
         = (ApiResponse.error 400 "INVALID_PARAMETERS"
             "Metrics array is required and cannot be empty", db, [])) ∧
    (parseMetricsBody body = none →
       handleMetricsPost cfg now outcome db body
         = (ApiResponse.validationFailed 400, db, [])) := by
  constructor <;> intro h <;> simp [handleMetricsPost, h]

/-- Witness for the amended claim C6 at a concrete empty-array body. -/
theorem claim_C6_amended_witness :
    parseMetricsBody (Json.obj [("metrics", Json.arr [])]) = some [] ∧
    handleMetricsPost ⟨1, "u", true⟩ 0 ForwardOutcome.failure []
        (Json.obj [("metrics", Json.arr [])])
      = (ApiResponse.error 400 "INVALID_PARAMETERS"
          "Metrics array is required and cannot be empty", [], []) :=
  ⟨rfl,
   (claim_C6_amended ⟨1, "u", true⟩ 0 ForwardOutcome.failure []
      (Json.obj [("metrics", Json.arr [])])).1 rfl⟩

/-- Claim C4 (confirmed): when the batch stored at least one metric and the
forward call fails, processMetrics still returns, with exactly the counters
of a successful forward; the database keeps precisely the classification
result (no stored record removed or altered); and the endpoint still
answers success with those counters. -/
theorem claim_C4_forward_failure_isolation (cfg : MetricsConfig) (now : Int)
    (db : List MetricRecord) (metrics : List Metric) (resp : Json) (body : Json)
    (hparse : parseMetricsBody body = some metrics)
    (hstored : 0 < (classifyMetrics cfg now db metrics).stored) :
    (processMetrics cfg now ForwardOutcome.failure db metrics).result
        = (processMetrics cfg now (ForwardOutcome.success resp) db metrics).result ∧
    (processMetrics cfg now ForwardOutcome.failure db metrics).db
        = (classifyMetrics cfg now db metrics).db ∧
    (handleMetricsPost cfg now ForwardOutcome.failure db body).1
        = ApiResponse.success 200
            (processMetrics cfg now ForwardOutcome.failure db metrics).result := by
  refine ⟨?_, processMetrics_failure_db cfg now db metrics, ?_⟩
  · rw [processMetrics_result, processMetrics_result]
  · have hlen : ¬ metrics.length = 0 := by
      intro h0
      obtain ⟨_, h2⟩ := classify_foldl_counts cfg now metrics ⟨db, 0, 0, 0, []⟩
      dsimp only at h2
      unfold classifyMetrics at hstored
      omega
    unfold handleMetricsPost
    rw [hparse]
    simp only [hlen, if_false]

/-- Witness for claim C4 at a concrete one-metric batch against an empty
store, with forwarding enabled and the sink failing. -/
theorem claim_C4_forward_failure_isolation_witness :
    parseMetricsBody (Json.obj [("metrics", Json.arr
        [Json.obj [("metric_name", Json.str "n"), ("value", Json.num 1),
                   ("tags", Json.obj []), ("type", Json.str "c")]])])
      = some [{ metric_name := "n", page_path := none, value := 1, tags := [],
                type := "c" }] ∧
    0 < (classifyMetrics ⟨1, "u", true⟩ 0 []
        [{ metric_name := "n", page_path := none, value := 1, tags := [],
           type := "c" }]).stored ∧
    ((processMetrics ⟨1, "u", true⟩ 0 ForwardOutcome.failure []
        [{ metric_name := "n", page_path := none, value := 1, tags := [],
           type := "c" }]).result
       = (processMetrics ⟨1, "u", true⟩ 0 (ForwardOutcome.success Json.null) []
           [{ metric_name := "n", page_path := none, value := 1, tags := [],
              type := "c" }]).result ∧
     (processMetrics ⟨1, "u", true⟩ 0 ForwardOutcome.failure []
        [{ metric_name := "n", page_path := none, value := 1, tags := [],
           type := "c" }]).db
       = (classifyMetrics ⟨1, "u", true⟩ 0 []
           [{ metric_name := "n", page_path := none, value := 1, tags := [],
              type := "c" }]).db ∧
     (handleMetricsPost ⟨1, "u", true⟩ 0 ForwardOutcome.failure []
        (Json.obj [("metrics", Json.arr
          [Json.obj [("metric_name", Json.str "n"), ("value", Json.num 1),
                     ("tags", Json.obj []), ("type", Json.str "c")]])])).1
       = ApiResponse.success 200
           (processMetrics ⟨1, "u", true⟩ 0 ForwardOutcome.failure []
             [{ metric_name := "n", page_path := none, value := 1, tags := [],
                type := "c" }]).result) :=
  ⟨rfl, by decide,
   claim_C4_forward_failure_isolation ⟨1, "u", true⟩ 0 []
     [{ metric_name := "n", page_path := none, value := 1, tags := [], type := "c" }]
     Json.null
     (Json.obj [("metrics", Json.arr
       [Json.obj [("metric_name", Json.str "n"), ("value", Json.num 1),
                  ("tags", Json.obj []), ("type", Json.str "c")]])])
     rfl (by decide)⟩

/-- Claim C5 (confirmed): classification is strictly left to right — a
batch split as ms1 ++ ms2 is classified by continuing from the state the
prefix produced, so every lookup sees all earlier inserts of the same
batch — and on an empty store the batch [m1, m2, m1] with m2 of a distinct
identity tuple yields processed 3, stored 2, skipped 1. -/
theorem claim_C5_left_to_right_order (cfg : MetricsConfig) (now : Int) :
    (∀ (db : List MetricRecord) (ms1 ms2 : List Metric),
       classifyMetrics cfg now db (ms1 ++ ms2)
         = ms2.foldl (classifyStep cfg now) (classifyMetrics cfg now db ms1)) ∧
    (∀ (outcome : ForwardOutcome) (m1 m2 : Metric),
       identityTuple m1 ≠ identityTuple m2 →
       (processMetrics cfg now outcome [] [m1, m2, m1]).result
         = ⟨3, 2, 1⟩) := by
  constructor
  · intro db ms1 ms2
    unfold classifyMetrics
    rw [List.foldl_append]
  · intro outcome m1 m2 hne
    rw [processMetrics_result]
    have e1 : classifyStep cfg now ⟨[], 0, 0, 0, []⟩ m1
        = ⟨[mkRecord now m1 (generateMetricHash m1)], 1, 1, 0, [m1]⟩ := by
      rw [classifyStep_store cfg now ⟨[], 0, 0, 0, []⟩ m1 rfl]
      rfl
    have hB : metricExistsInDB cfg now [mkRecord now m1 (generateMetricHash m1)]
        m2 (generateMetricHash m2) = false := by
      have hnm : ¬ RecordMatch cfg now m2 (generateMetricHash m2)
          (mkRecord now m1 (generateMetricHash m1)) := by
        intro hm
        obtain ⟨a, b, c, d, e, _⟩ := hm
        apply hne
        unfold identityTuple
        rw [show m1.metric_name = m2.metric_name from a,
            show normPagePath m1.page_path = normPagePath m2.page_path from b,
            show generateMetricHash m1 = generateMetricHash m2 from c,
            show m1.type = m2.type from d,
            show toString m1.value = toString m2.value from e]
      simp [metricExistsInDB, hnm]
    have e2 : classifyStep cfg now
        ⟨[mkRecord now m1 (generateMetricHash m1)], 1, 1, 0, [m1]⟩ m2
        = ⟨[mkRecord now m1 (generateMetricHash m1),
            mkRecord now m2 (generateMetricHash m2)], 2, 2, 0, [m1, m2]⟩ := by
      rw [classifyStep_store cfg now _ m2 hB]
      rfl
    have hwin : now - (cfg.dedupWindowHours : Int) * 3600000
        ≤ (mkRecord now m1 (generateMetricHash m1)).createdAt := by
      have h0 : (0 : Int) ≤ (cfg.dedupWindowHours : Int) * 3600000 := by positivity
      show now - (cfg.dedupWindowHours : Int) * 3600000 ≤ now
      omega
    have hC : metricExistsInDB cfg now
        [mkRecord now m1 (generateMetricHash m1),
         mkRecord now m2 (generateMetricHash m2)] m1 (generateMetricHash m1) = true := by
      have hm : RecordMatch cfg now m1 (generateMetricHash m1)
          (mkRecord now m1 (generateMetricHash m1)) :=
        ⟨rfl, rfl, rfl, rfl, rfl, hwin⟩
      simp [metricExistsInDB]
      exact Or.inl hm
    have e3 : classifyStep cfg now
        ⟨[mkRecord now m1 (generateMetricHash m1),
          mkRecord now m2 (generateMetricHash m2)], 2, 2, 0, [m1, m2]⟩ m1
        = ⟨[mkRecord now m1 (generateMetricHash m1),
            mkRecord now m2 (generateMetricHash m2)], 3, 2, 1, [m1, m2]⟩ := by
      rw [classifyStep_skip cfg now _ m1 hC]
    have hclass : classifyMetrics cfg now [] [m1, m2, m1]
        = ⟨[mkRecord now m1 (generateMetricHash m1),
            mkRecord now m2 (generateMetricHash m2)], 3, 2, 1, [m1, m2]⟩ := by
      unfold classifyMetrics
      simp only [List.foldl_cons, List.foldl_nil]
      rw [e1, e2, e3]
    rw [hclass]

/-- Witness for claim C5 at two concrete metrics differing in name. -/
theorem claim_C5_left_to_right_order_witness :
    identityTuple { metric_name := "a", page_path := none, value := 1,
                    tags := [], type := "c" }
      ≠ identityTuple { metric_name := "b", page_path := none, value := 1,
                        tags := [], type := "c" } ∧
    (processMetrics ⟨1, "u", true⟩ 0 ForwardOutcome.failure []
        [{ metric_name := "a", page_path := none, value := 1, tags := [], type := "c" },
         { metric_name := "b", page_path := none, value := 1, tags := [], type := "c" },
         { metric_name := "a", page_path := none, value := 1, tags := [], type := "c" }]).result
      = ⟨3, 2, 1⟩ :=
  ⟨by decide,
   (claim_C5_left_to_right_order ⟨1, "u", true⟩ 0).2 ForwardOutcome.failure
     { metric_name := "a", page_path := none, value := 1, tags := [], type := "c" }
     { metric_name := "b", page_path := none, value := 1, tags := [], type := "c" }
     (by decide)⟩

/-- Claim C7 (confirmed): on forward success the final database is the
classification result with exactly those rows updated that match the
identity tuple of some just-stored metric and still carry
forwarded (externalApiCalled) = false — they get forwarded = true and the
sink response attached, every other field kept — while every other row,
including same-fingerprint rows already marked forwarded, is unchanged;
and the row just stored for a metric does match that metric's update query
with forwarded = false. -/
theorem claim_C7_forward_update_frame (cfg : MetricsConfig) (now : Int)
    (db : List MetricRecord) (metrics : List Metric) (resp : Json)
    (he : cfg.externalApiEnabled = true)
    (hne : (classifyMetrics cfg now db metrics).metricsToSend ≠ []) :
    (processMetrics cfg now (ForwardOutcome.success resp) db metrics).db
        = (classifyMetrics cfg now db metrics).db.map (fun r =>
            if ∃ m ∈ (classifyMetrics cfg now db metrics).metricsToSend,
                UpdateMatch m (generateMetricHash m) r then
              { r with externalApiCalled := true,
                       externalApiResponse :=
                         some (if jsTruthy resp then resp else Json.obj []) }
            else r) ∧
    (∀ (now2 : Int) (m : Metric),
       UpdateMatch m (generateMetricHash m)
         (mkRecord now2 m (generateMetricHash m))) :=
  ⟨processMetrics_success_db cfg now db metrics resp he hne,
   fun _ m => ⟨rfl, rfl, rfl, rfl, rfl, rfl⟩⟩

/-- Witness for claim C7 at a one-metric batch against an empty store with
forwarding enabled and the sink answering with null. -/
theorem claim_C7_forward_update_frame_witness :
    (⟨1, "u", true⟩ : MetricsConfig).externalApiEnabled = true ∧
    (classifyMetrics ⟨1, "u", true⟩ 0 []
        [{ metric_name := "n", page_path := none, value := 1, tags := [],
           type := "c" }]).metricsToSend ≠ [] ∧
    ((processMetrics ⟨1, "u", true⟩ 0 (ForwardOutcome.success Json.null) []
        [{ metric_name := "n", page_path := none, value := 1, tags := [],
           type := "c" }]).db
       = (classifyMetrics ⟨1, "u", true⟩ 0 []
           [{ metric_name := "n", page_path := none, value := 1, tags := [],
              type := "c" }]).db.map (fun r =>
             if ∃ m ∈ (classifyMetrics ⟨1, "u", true⟩ 0 []
                 [{ metric_name := "n", page_path := none, value := 1, tags := [],
                    type := "c" }]).metricsToSend,
                 UpdateMatch m (generateMetricHash m) r then
               { r with externalApiCalled := true,
                        externalApiResponse :=
                          some (if jsTruthy Json.null then Json.null else Json.obj []) }
             else r) ∧
     (∀ (now2 : Int) (m : Metric),
        UpdateMatch m (generateMetricHash m)
          (mkRecord now2 m (generateMetricHash m)))) :=
  ⟨rfl,
   by
     rw [show (classifyMetrics ⟨1, "u", true⟩ 0 []
         [{ metric_name := "n", page_path := none, value := 1, tags := [],
            type := "c" }]).metricsToSend
       = [{ metric_name := "n", page_path := none, value := 1, tags := [],
            type := "c" }] from rfl]
     exact List.cons_ne_nil _ _,
   claim_C7_forward_update_frame ⟨1, "u", true⟩ 0 []
     [{ metric_name := "n", page_path := none, value := 1, tags := [], type := "c" }]
     Json.null rfl
     (by
       rw [show (classifyMetrics ⟨1, "u", true⟩ 0 []
           [{ metric_name := "n", page_path := none, value := 1, tags := [],
              type := "c" }]).metricsToSend
         = [{ metric_name := "n", page_path := none, value := 1, tags := [],
              type := "c" }] from rfl]
       exact List.cons_ne_nil _ _)⟩

/-- Claim C8 (confirmed): with forwarding enabled and a non-empty
just-stored list, exactly one outbound POST is issued, to the configured
collector URL, carrying the whole stored metrics list in one body, with
content type text/plain;charset=UTF-8, the custom user agent, and a
10000 ms timeout; with forwarding disabled neither the forwarder nor
processMetrics issues any outbound call. -/
theorem claim_C8_forwarder_single_call (cfg : MetricsConfig) :
    (∀ (outcome : ForwardOutcome) (ms : List Metric),
       cfg.externalApiEnabled = true →
       (callExternalMetricsAPI cfg outcome ms).1 = [mkForwardRequest cfg ms]) ∧
    (∀ (outcome : ForwardOutcome) (ms : List Metric),
       cfg.externalApiEnabled = false →
       (callExternalMetricsAPI cfg outcome ms).1 = []) ∧
    (∀ (now : Int) (outcome : ForwardOutcome) (db : List MetricRecord)
       (metrics : List Metric),
       cfg.externalApiEnabled = true →
       (classifyMetrics cfg now db metrics).metricsToSend ≠ [] →
       (processMetrics cfg now outcome db metrics).requests
         = [mkForwardRequest cfg
             (classifyMetrics cfg now db metrics).metricsToSend]) ∧
    (∀ (now : Int) (outcome : ForwardOutcome) (db : List MetricRecord)
       (metrics : List Metric),
       cfg.externalApiEnabled = false →
       (processMetrics cfg now outcome db metrics).requests = []) ∧
    (∀ ms : List Metric,
       (mkForwardRequest cfg ms).url = cfg.externalApiUrl ∧
       (mkForwardRequest cfg ms).body
         = Json.obj [("metrics", Json.arr (ms.map metricToJson))] ∧
       (mkForwardRequest cfg ms).contentType = "text/plain;charset=UTF-8" ∧
       (mkForwardRequest cfg ms).userAgent
         = "Mozilla/5.0 (Macintosh; Intel Mac OS X 10_15_7) AppleWebKit/537.36" ∧
       (mkForwardRequest cfg ms).timeoutMs = 10000) := by
  refine ⟨?_, ?_, ?_, ?_, fun ms => ⟨rfl, rfl, rfl, rfl, rfl⟩⟩
  · intro outcome ms he
    cases outcome <;> simp [callExternalMetricsAPI, he]
  · intro outcome ms he
    simp [callExternalMetricsAPI, he]
  · intro now outcome db metrics he hne
    rw [processMetrics_requests, if_pos]
    exact ⟨List.length_pos.mpr hne, he⟩
  · intro now outcome db metrics he
    rw [processMetrics_requests, if_neg]
    simp [he]

/-- Witness for claim C8: one concrete enabled configuration and stored
list produce the single expected request. -/
theorem claim_C8_forwarder_single_call_witness :
    (⟨1, "u", true⟩ : MetricsConfig).externalApiEnabled = true ∧
    (classifyMetrics ⟨1, "u", true⟩ 0 []
        [{ metric_name := "n", page_path := none, value := 1, tags := [],
           type := "c" }]).metricsToSend ≠ [] ∧
    (processMetrics ⟨1, "u", true⟩ 0 ForwardOutcome.failure []
        [{ metric_name := "n", page_path := none, value := 1, tags := [],
           type := "c" }]).requests
      = [mkForwardRequest ⟨1, "u", true⟩
          (classifyMetrics ⟨1, "u", true⟩ 0 []
            [{ metric_name := "n", page_path := none, value := 1, tags := [],
               type := "c" }]).metricsToSend] :=
  ⟨rfl,
   by
     rw [show (classifyMetrics ⟨1, "u", true⟩ 0 []
         [{ metric_name := "n", page_path := none, value := 1, tags := [],
            type := "c" }]).metricsToSend
       = [{ metric_name := "n", page_path := none, value := 1, tags := [],
            type := "c" }] from rfl]
     exact List.cons_ne_nil _ _,
   (claim_C8_forwarder_single_call ⟨1, "u", true⟩).2.2.1 0 ForwardOutcome.failure []
     [{ metric_name := "n", page_path := none, value := 1, tags := [], type := "c" }]
     rfl
     (by
       rw [show (classifyMetrics ⟨1, "u", true⟩ 0 []
           [{ metric_name := "n", page_path := none, value := 1, tags := [],
              type := "c" }]).metricsToSend
         = [{ metric_name := "n", page_path := none, value := 1, tags := [],
              type := "c" }] from rfl]
       exact List.cons_ne_nil _ _)⟩
